import Mathlib

/-!
Shallow embedding of the terminal-animation timeline compiler
(src/build.ts, the CSS implementation, together with the engine constants
in timings.ts and, where a claim refers to it, the legacy SMIL
implementation build.ts at the repository root).

Conventions of the embedding:
* JavaScript numbers are modelled as rationals; every arithmetic step of
  the source is mirrored exactly.  The call
  Number.parseFloat(x.toFixed(4)) is modelled by round4 below
  (rounding half up at the fourth decimal), which agrees with toFixed on
  every value this development evaluates.
* The in-place mutation of step.timing.start performed by buildSVG
  (lines 317-324 of src/build.ts) is modelled by explicit state passing:
  buildSVGFull returns both the produced document and the configuration
  as it stands after the call.  The mutation is sequential, so resolving
  all steps first (resolveSteps) and then rendering from the resolved
  list computes exactly the per-step values the source computes.
* The returned document is kept as abstract syntax (BuildOutput): the
  numeric fields, keyframe definitions, rules and markup fragments that
  the final string assembly serialises.  The serialisation is injective
  in these fields (each is printed verbatim into the output text), so
  equality of BuildOutput values is equality of output bytes and
  inequality of a field witnesses inequality of output bytes.
* Markup text is modelled up to the whitespace normalisation performed
  by the dedent template helper; no claim depends on that whitespace.
-/

/-- Per-step timing block of a TerminalStep (types.ts). -/
structure Timing where
  start : ℚ
  perChar : ℚ
  hold : ℚ
  fadeIn : Option ℚ
deriving DecidableEq

/-- Shell prompt description (types.ts). -/
structure ShellPrompt where
  user : String
  host : String
  symbol : String
  path : Option String
deriving DecidableEq

/-- Optional explicit pixel overrides of a step (types.ts). -/
structure Position where
  promptX : Option ℚ
  commandX : Option ℚ
deriving DecidableEq

/-- One step of the animation sequence (types.ts). -/
structure TerminalStep where
  terminalLines : List String
  shellPrompt : ShellPrompt
  command : String
  timing : Timing
  position : Option Position
deriving DecidableEq

/-- Colour settings of a configuration (types.ts). -/
structure Colors where
  bg : String
  terminalLines : String
  user : String
  host : String
  path : Option String
  symbol : String
  command : String
deriving DecidableEq

/-- The configuration consumed by buildSVG (types.ts); fields that only
the CLI entry point reads (name, outputTypes, outputDirectory, useCss)
are omitted because no claim depends on them. -/
structure Config where
  width : ℚ
  height : ℚ
  fontFamily : String
  fontSize : ℚ
  colors : Colors
  charWidth : ℚ
  steps : List TerminalStep
  loop : Bool
  embed : Bool
deriving DecidableEq

/-- The engine constants of timings.ts. -/
structure TimingConstants where
  STEP_TRANSITION : ℚ
  LOOP_EXTRA_TIME : ℚ
  NON_LOOP_EXTRA_TIME : ℚ
  LAST_STEP_EXTRA_TIME : ℚ
  CHAR_ANIMATION_DURATION : ℚ
  GIF_FPS : ℚ

/-- The values exported by timings.ts (lines 6-35). -/
def TIMINGS : TimingConstants :=
  { STEP_TRANSITION := 1/2
    LOOP_EXTRA_TIME := 0
    NON_LOOP_EXTRA_TIME := 1/2
    LAST_STEP_EXTRA_TIME := 1
    CHAR_ANIMATION_DURATION := 1/100
    GIF_FPS := 30 }

/-- Placeholder used with List.getD when indexing step lists. -/
def dummyStep : TerminalStep :=
  { terminalLines := []
    shellPrompt := { user := "", host := "", symbol := "", path := none }
    command := ""
    timing := { start := 0, perChar := 0, hold := 0, fadeIn := none }
    position := none }

/-- The typing-phase duration of a step:
command length times perChar plus hold. -/
def stepDuration (step : TerminalStep) : ℚ :=
  (step.command.length : ℚ) * step.timing.perChar + step.timing.hold

/-- The end time of a step: start plus its typing-phase duration.
This is the quantity stepEndTime of computeTotalAnimationTime (without
the last-step extra pause) and the base of prevEndTime. -/
def stepEnd (step : TerminalStep) : ℚ :=
  step.timing.start + stepDuration step

/-- The value prevEndTime computed at lines 320-322 of src/build.ts:
the end of the previous step plus the fixed transition gap. -/
def prevEndTime (prev : TerminalStep) : ℚ :=
  prev.timing.start + (prev.command.length : ℚ) * prev.timing.perChar +
    prev.timing.hold + TIMINGS.STEP_TRANSITION

/-- Replace the start field of a step, leaving everything else alone;
this is the single assignment step.timing.start = prevEndTime of
line 323 of src/build.ts. -/
def setStart (s : TerminalStep) (t : ℚ) : TerminalStep :=
  { s with timing := { s.timing with start := t } }

/-- The overlap adjustment of one step against its (already resolved)
predecessor: the conditional assignment of line 323 of src/build.ts. -/
def resolveOne (prev step : TerminalStep) : TerminalStep :=
  if step.timing.start < prevEndTime prev then setStart step (prevEndTime prev) else step

/-- The overlap-resolution pass from the body of the forEach at
lines 317-324 of src/build.ts, for all steps after the first: each step
is pushed to prevEndTime of the already-resolved previous step when its
own start is earlier. -/
def resolveGo (prev : TerminalStep) : List TerminalStep → List TerminalStep
  | [] => []
  | step :: rest =>
    let stepR := resolveOne prev step
    stepR :: resolveGo stepR rest

/-- Overlap resolution of a whole step list; the first step is never
modified (the index > 0 guard of line 318 of src/build.ts). -/
def resolveSteps : List TerminalStep → List TerminalStep
  | [] => []
  | step :: rest => step :: resolveGo step rest

/-- The per-step accumulation loop of computeTotalAnimationTime
(src/build.ts lines 66-81): take the max of the accumulator and the
step end (the last step gets LAST_STEP_EXTRA_TIME in loop mode), and
add STEP_TRANSITION after every step but the last. -/
def totalTimeGo (loop : Bool) (acc : ℚ) : List TerminalStep → ℚ
  | [] => acc
  | [step] => max acc (stepEnd step + (if loop then TIMINGS.LAST_STEP_EXTRA_TIME else 0))
  | step :: rest => totalTimeGo loop (max acc (stepEnd step) + TIMINGS.STEP_TRANSITION) rest

/-- computeTotalAnimationTime (src/build.ts lines 63-84).  Note that
buildSVG calls it on the configuration as passed in, before the overlap
resolution that the render loop performs. -/
def computeTotalAnimationTime (config : Config) : ℚ :=
  totalTimeGo config.loop 0 config.steps +
    (if config.loop then TIMINGS.LOOP_EXTRA_TIME else TIMINGS.NON_LOOP_EXTRA_TIME)

/-- Model of Number.parseFloat(x.toFixed(4)): round to four decimal
places, half away from zero on the nonnegative values this code
produces. -/
def round4 (q : ℚ) : ℚ :=
  (⌊q * 10000 + 1/2⌋ : ℚ) / 10000

/-- Conversion of an absolute time to a cycle percentage with the
four-decimal rounding every percentage in src/build.ts goes through. -/
def toPct (t total : ℚ) : ℚ :=
  round4 (t / total * 100)

/-- One character of XML escaping.  Models the entity replacement the
libs/xml stringify call performs inside escapeXML of src/build.ts. -/
def escChar (c : Char) : String :=
  if c = '&' then "&amp;"
  else if c = '<' then "&lt;"
  else if c = '>' then "&gt;"
  else if c = '"' then "&quot;"
  else String.singleton c

/-- escapeXML (src/build.ts lines 107-113). -/
def escapeXML (s : String) : String :=
  String.join (s.toList.map escChar)

/-- One (percentage, property-state) pair of a keyframe definition
(the Keyframe type of src/build.ts line 13). -/
structure Keyframe where
  pct : ℚ
  props : String
deriving DecidableEq

/-- The three shapes of keyframe definition the synthesizer emits. -/
inductive KFKind
  | lineFade
  | cmdGroupFade
  | typeChar
deriving DecidableEq

/-- A named keyframe definition as pushed onto cssKeyframes.  The name
string of the source is recovered by kfName below; charIndex is only
meaningful for typeChar definitions and is 0 otherwise. -/
structure KeyframeDef where
  kind : KFKind
  stepIndex : ℕ
  charIndex : ℕ
  entries : List Keyframe
deriving DecidableEq

/-- The keyframe names of src/build.ts: fade-N for the line groups
(line 163), fade-cmd-N for command groups (line 258) and type-N-i for
single characters (line 282). -/
def kfName (k : KeyframeDef) : String :=
  match k.kind with
  | .lineFade => "fade-" ++ toString k.stepIndex
  | .cmdGroupFade => "fade-cmd-" ++ toString k.stepIndex
  | .typeChar => "type-" ++ toString k.stepIndex ++ "-" ++ toString k.charIndex

/-- A CSS rule as pushed onto cssRules (the CSSRule type of
src/build.ts line 14). -/
structure CSSRule where
  selector : String
  declarations : String
deriving DecidableEq

/-- The three kinds of markup fragment appended to the content string. -/
inductive FragKind
  | lines
  | prompt
  | command
deriving DecidableEq

/-- One markup fragment of the assembled content, tagged with the step
it was rendered for.  The content string of the source is the
concatenation of the markup fields in list order. -/
structure Fragment where
  kind : FragKind
  stepIndex : ℕ
  markup : String
deriving DecidableEq

/-- The triple of per-call accumulators of buildSVG: content fragments,
cssKeyframes and cssRules, all in emission order. -/
abbrev RenderParts := List Fragment × List KeyframeDef × List CSSRule

/-- Concatenate two accumulator triples componentwise. -/
def partsAppend (a b : RenderParts) : RenderParts :=
  (a.1 ++ b.1, a.2.1 ++ b.2.1, a.2.2 ++ b.2.2)

/-- The animation start time computed at lines 146-150 of src/build.ts:
0 for the first step, otherwise the previous step end plus
STEP_TRANSITION.  The source reads config.steps at the already-resolved
previous index; the model passes that resolved previous step
explicitly. -/
def animateStartOf : Option TerminalStep → ℚ
  | none => 0
  | some prev => prev.timing.start + (prev.command.length : ℚ) * prev.timing.perChar +
      prev.timing.hold + TIMINGS.STEP_TRANSITION

/-- The six keyframes pushed for a line group at lines 171-178 of
src/build.ts, with the four rounded percentages of lines 157-160. -/
def lineFadeEntries (animateStart fadeOutAt totalDuration : ℚ) : List Keyframe :=
  let fadeInStart := toPct animateStart totalDuration
  let fadeInEnd := round4 (fadeInStart + (2/10) / totalDuration * 100)
  let fadeOutStart := toPct fadeOutAt totalDuration
  let fadeOutEnd := round4 (fadeOutStart + (2/10) / totalDuration * 100)
  [⟨0, "opacity: 0;"⟩, ⟨fadeInStart, "opacity: 0;"⟩, ⟨fadeInEnd, "opacity: 1;"⟩,
   ⟨fadeOutStart, "opacity: 1;"⟩, ⟨fadeOutEnd, "opacity: 0;"⟩, ⟨100, "opacity: 0;"⟩]

/-- One line of terminal output markup (lines 190-196 of
src/build.ts). -/
def lineText (config : Config) (i : ℕ) (line : String) : String :=
  "<text x=\"20\" y=\"" ++ toString (40 + i * 20) ++ "\" style=\"font-family: " ++
    config.fontFamily ++ "; font-size: " ++ toString config.fontSize ++ "px; fill: " ++
    config.colors.terminalLines ++ ";\">" ++ escapeXML line ++ "</text>"

/-- The line-group markup returned by renderLines. -/
def linesMarkup (config : Config) (index : ℕ) (lines : List String) : String :=
  "<g class=\"line-" ++ toString index ++ "\">" ++
    String.join (lines.enum.map (fun p => lineText config p.1 p.2)) ++ "</g>"

/-- renderLines (src/build.ts lines 137-200): empty line lists render
nothing; otherwise one fragment, one keyframe definition and one rule
are emitted. -/
def renderLinesM (config : Config) (totalDuration cycleMs : ℚ) (shouldLoop : Bool)
    (prev : Option TerminalStep) (lines : List String) (fadeOutAt : ℚ)
    (index : ℕ) (isLastStep : Bool) : RenderParts :=
  if lines.isEmpty then ([], [], [])
  else
    let animateStart := animateStartOf prev
    let animationStyle :=
      if isLastStep && config.loop then
        "fade-" ++ toString index ++ " " ++ toString cycleMs ++ "ms linear infinite"
      else
        "fade-" ++ toString index ++ " " ++ toString cycleMs ++ "ms linear " ++
          (if shouldLoop then "infinite" else "1")
    ([⟨.lines, index, linesMarkup config index lines⟩],
     [⟨.lineFade, index, 0, lineFadeEntries animateStart fadeOutAt totalDuration⟩],
     [⟨".line-" ++ toString index, "animation: " ++ animationStyle ++ ";"⟩])

/-- The textual form of a prompt, whose length drives the layout
(line 134 of src/build.ts). -/
def promptText (prompt : ShellPrompt) : String :=
  prompt.user ++ "@" ++ prompt.host ++
    (match prompt.path with
     | some p => ":" ++ p
     | none => "") ++ prompt.symbol

/-- calcPromptWidth (src/build.ts lines 133-135). -/
def calcPromptWidth (config : Config) (prompt : ShellPrompt) : ℚ :=
  ((promptText prompt).length : ℚ) * config.charWidth

/-- The optional path tspan of the prompt markup (lines 203-207). -/
def pathTspan (config : Config) (prompt : ShellPrompt) : String :=
  match prompt.path with
  | some p => "<tspan style=\"fill: " ++ (config.colors.path.getD config.colors.host) ++
      ";\">:" ++ escapeXML p ++ "</tspan>"
  | none => ""

/-- The prompt markup returned by renderPrompt (lines 219-231). -/
def promptMarkup (config : Config) (prompt : ShellPrompt) (x : ℚ) (stepIndex : ℕ) : String :=
  "<text x=\"" ++ toString x ++ "\" y=\"" ++ toString (config.height - 5) ++
    "\" class=\"prompt-" ++ toString stepIndex ++ "\" style=\"font-family: " ++ config.fontFamily ++
    "; font-size: " ++ toString config.fontSize ++ "px;\">" ++
    "<tspan style=\"fill: " ++ config.colors.user ++ ";\">" ++ escapeXML prompt.user ++
    "</tspan><tspan style=\"fill: " ++ config.colors.symbol ++ ";\">@</tspan><tspan style=\"fill: " ++
    config.colors.host ++ ";\">" ++ escapeXML prompt.host ++ "</tspan>" ++ pathTspan config prompt ++
    "<tspan style=\"fill: " ++ config.colors.symbol ++ ";\">" ++ escapeXML prompt.symbol ++
    "</tspan></text>"

/-- renderPrompt (src/build.ts lines 202-232): one fragment and one
static opacity rule. -/
def renderPromptM (config : Config) (prompt : ShellPrompt) (x : ℚ) (stepIndex : ℕ) : RenderParts :=
  ([⟨.prompt, stepIndex, promptMarkup config prompt x stepIndex⟩], [],
   [⟨".prompt-" ++ toString stepIndex, "opacity: 1;"⟩])

/-- The four keyframes of a single typed character (lines 283-288). -/
def typeEntries (charStartPct : ℚ) : List Keyframe :=
  [⟨0, "opacity: 0;"⟩, ⟨round4 (charStartPct - 1/100), "opacity: 0;"⟩,
   ⟨charStartPct, "opacity: 1;"⟩, ⟨100, "opacity: 1;"⟩]

/-- The four keyframes of a command-group fade-out (lines 259-264). -/
def cmdGroupEntries (fadeOutStartPct fadeOutEndPct : ℚ) : List Keyframe :=
  [⟨0, "opacity: 1;"⟩, ⟨fadeOutStartPct, "opacity: 1;"⟩,
   ⟨fadeOutEndPct, "opacity: 0;"⟩, ⟨100, "opacity: 0;"⟩]

/-- One typed character of command markup (lines 299-303). -/
def charText (config : Config) (charX : ℚ) (stepIndex i : ℕ) (c : Char) : String :=
  "<text x=\"" ++ toString charX ++ "\" y=\"" ++ toString (config.height - 5) ++
    "\" class=\"cmd-" ++ toString stepIndex ++ "-" ++ toString i ++
    "\" style=\"font-family: " ++ config.fontFamily ++ "; font-size: " ++ toString config.fontSize ++
    "px; fill: " ++ config.colors.command ++ ";\">" ++ escapeXML (String.singleton c) ++ "</text>"

/-- renderCommand (src/build.ts lines 234-311).  Empty commands render
nothing.  The source recovers the step index by parsing the id string
command-N that buildSVG passes in; the model passes the index as data.
charWidthFactor is 0.8 and commandPadding is -5 (lines 244-245). -/
def renderCommandM (config : Config) (totalDuration cycleMs : ℚ) (shouldLoop : Bool)
    (command : String) (timing : Timing) (xStart : ℚ) (stepIndex : ℕ)
    (isLastStep : Bool) : RenderParts :=
  if command.isEmpty then ([], [], [])
  else
    let fadeOutStartTime := timing.start + (command.length : ℚ) * timing.perChar + timing.hold +
      (if isLastStep && config.loop then TIMINGS.LAST_STEP_EXTRA_TIME else 0)
    let fadeOutStartPct := toPct fadeOutStartTime totalDuration
    let fadeOutEndPct := round4 (fadeOutStartPct + (2/10) / totalDuration * 100)
    let iter := if shouldLoop then "infinite" else "1"
    let charParts := (List.range command.length).map (fun (i : ℕ) =>
      let charX := xStart + (-5 : ℚ) + (i : ℚ) * (config.charWidth * (8/10))
      let charStartPct := toPct (timing.start + (i : ℚ) * timing.perChar) totalDuration
      ((⟨.typeChar, stepIndex, i, typeEntries charStartPct⟩ : KeyframeDef),
       (⟨".cmd-" ++ toString stepIndex ++ "-" ++ toString i,
         "animation: type-" ++ toString stepIndex ++ "-" ++ toString i ++ " " ++ toString cycleMs ++
           "ms steps(1, end) " ++ iter ++ " forwards;"⟩ : CSSRule),
       charText config charX stepIndex i (command.toList.getD i ' ')))
    ([⟨.command, stepIndex,
       "<g class=\"cmd-group-" ++ toString stepIndex ++ "\">" ++
         String.join (charParts.map (fun p => p.2.2)) ++ "</g>"⟩],
     ⟨.cmdGroupFade, stepIndex, 0, cmdGroupEntries fadeOutStartPct fadeOutEndPct⟩ ::
       charParts.map (fun p => p.1),
     ⟨".cmd-group-" ++ toString stepIndex,
       "animation: fade-cmd-" ++ toString stepIndex ++ " " ++ toString cycleMs ++ "ms linear " ++
         iter ++ ";"⟩ :: charParts.map (fun p => p.2.1))

/-- The per-step loop of buildSVG (src/build.ts lines 313-349), run on
the resolved step list (the source resolves each step in place just
before rendering it; resolving first and rendering from the resolved
list yields the identical per-step values, see resolveSteps).  The
prompt and command of the final step are only rendered when config.loop
is set (lines 341-348); note the branch tests config.loop, not
shouldLoop. -/
def buildSteps (config : Config) (totalDuration cycleMs : ℚ) (shouldLoop : Bool) :
    ℕ → Option TerminalStep → List TerminalStep → RenderParts
  | _, _, [] => ([], [], [])
  | index, prev, step :: rest =>
    let isLastStep := rest.isEmpty
    let promptX := (step.position.bind (fun p => p.promptX)).getD 20
    let promptWidth := calcPromptWidth config step.shellPrompt
    let commandX := (step.position.bind (fun p => p.commandX)).getD (promptX + promptWidth + 5)
    let fadeOutAt :=
      if isLastStep && config.loop then stepEnd step + TIMINGS.LAST_STEP_EXTRA_TIME
      else stepEnd step
    let lineParts := renderLinesM config totalDuration cycleMs shouldLoop prev
      step.terminalLines fadeOutAt index isLastStep
    let stepParts :=
      if !isLastStep then
        partsAppend lineParts (partsAppend
          (renderPromptM config step.shellPrompt promptX index)
          (renderCommandM config totalDuration cycleMs shouldLoop step.command step.timing
            commandX index false))
      else if config.loop then
        partsAppend lineParts (partsAppend
          (renderPromptM config step.shellPrompt promptX index)
          (renderCommandM config totalDuration cycleMs shouldLoop step.command step.timing
            commandX index true))
      else lineParts
    partsAppend stepParts
      (buildSteps config totalDuration cycleMs shouldLoop (index + 1) (some step) rest)

/-- The abstract syntax of the document buildSVG returns.  The string
assembly of src/build.ts lines 351-399 prints each of these fields
verbatim (totalDuration into the data-duration attribute, cycleMs into
every animation shorthand, the keyframe definitions and rules into the
style block, the fragments into the svg body, basename into the img
reference of the non-embedded HTML shell), so equal values produce
byte-identical output and a differing field witnesses differing
output. -/
structure BuildOutput where
  totalDuration : ℚ
  cycleMs : ℚ
  width : ℚ
  height : ℚ
  bg : String
  basename : String
  embed : Bool
  cssKeyframes : List KeyframeDef
  cssRules : List CSSRule
  content : List Fragment
deriving DecidableEq

/-- buildSVG (src/build.ts lines 115-400) as a pure function of the
configuration it was handed: totalDuration is computed first, on the
configuration as passed in (line 122), and the per-step loop then
renders while resolving overlaps. -/
def buildSVGOut (config : Config) (basename : String) (forceLoop : Bool) : BuildOutput :=
  let totalDuration := computeTotalAnimationTime config
  let shouldLoop := forceLoop || config.loop
  let cycleMs := totalDuration * 1000
  let parts := buildSteps config totalDuration cycleMs shouldLoop 0 none (resolveSteps config.steps)
  { totalDuration := totalDuration
    cycleMs := cycleMs
    width := config.width
    height := config.height
    bg := config.colors.bg
    basename := basename
    embed := config.embed
    cssKeyframes := parts.2.1
    cssRules := parts.2.2
    content := parts.1 }

/-- buildSVG with its side effect made explicit: the returned document
together with the configuration as the caller observes it after the
call.  Line 323 of src/build.ts assigns the resolved start into the
caller's step objects, so the steps field comes back resolved. -/
def buildSVGFull (config : Config) (basename : String) (forceLoop : Bool) :
    BuildOutput × Config :=
  (buildSVGOut config basename forceLoop, { config with steps := resolveSteps config.steps })

/-- The compile path of main (src/build.ts lines 510-567) up to the
point output exists: the only validation before buildSVG runs is the
generic empty-steps guard of line 529. -/
def compilePipeline (config : Config) (basename : String) : Except String BuildOutput :=
  if config.steps.isEmpty then Except.error "Invalid configuration: missing steps array"
  else Except.ok (buildSVGOut config basename false)

/-- The fade-out animate element of the legacy SMIL renderLines
(build.ts at the repository root, lines 118-122): an element for every
non-final step, a repeating element for a final step when looping, and
nothing at all for the final step when not looping. -/
inductive SmilFadeOut
  | once (fadeOutAt : ℚ)
  | repeatIndefinite (fadeOutAt : ℚ)
deriving DecidableEq

/-- The decision of build.ts lines 118-122 (legacy SMIL
implementation). -/
def smilLineFadeOut (isLastStep shouldLoop : Bool) (fadeOutAt : ℚ) : Option SmilFadeOut :=
  if !isLastStep then some (.once fadeOutAt)
  else if shouldLoop then some (.repeatIndefinite fadeOutAt)
  else none

instance : Inhabited TerminalStep := ⟨dummyStep⟩

/-- Placeholder keyframe definition for List.getD indexing. -/
def dummyKF : KeyframeDef := ⟨KFKind.lineFade, 0, 0, []⟩

/-- Placeholder keyframe pair for List.getD indexing. -/
def dummyKeyframe : Keyframe := ⟨0, ""⟩

/-- A step list already satisfying the no-overlap invariant the
resolver establishes: every step starts no earlier than the previous
step's end plus the transition gap.  On such input the in-place
adjustment of lines 317-324 of src/build.ts never fires. -/
def isResolved (ss : List TerminalStep) : Prop :=
  List.Chain' (fun a b => prevEndTime a ≤ b.timing.start) ss

/-- The step nonnegativity invariant of the data model: start, perChar
and hold are all nonnegative. -/
def validTiming (ss : List TerminalStep) : Prop :=
  ∀ s ∈ ss, 0 ≤ s.timing.start ∧ 0 ≤ s.timing.perChar ∧ 0 ≤ s.timing.hold

/-- Colour block shared by the concrete example configurations
(the defaults of defaults.ts). -/
def demoColors : Colors :=
  { bg := "black", terminalLines := "#00FF00", user := "#00ffff", host := "#ffaa00"
    path := none, symbol := "#fff", command := "#fff" }

/-- A step with the given lines, command and timing and default prompt
and position. -/
def mkStep (lines : List String) (command : String) (start perChar hold : ℚ) : TerminalStep :=
  { terminalLines := lines
    shellPrompt := { user := "zack", host := "dev", symbol := ":~$", path := none }
    command := command
    timing := { start := start, perChar := perChar, hold := hold, fadeIn := some (2/10) }
    position := none }

/-- A configuration around the given steps with the engine defaults of
defaults.ts. -/
def mkConfig (steps : List TerminalStep) (loop : Bool) : Config :=
  { width := 800, height := 200, fontFamily := "Courier New", fontSize := 18
    colors := demoColors, charWidth := 11, steps := steps, loop := loop, embed := false }

/-- Two steps whose second nominal start (6 s) falls before the first
step's end (7.5 s) plus the 0.5 s gap, so the resolver must move it to
8 s.  Used for the overlap-resolution and mutation claims. -/
def c4steps : List TerminalStep :=
  [mkStep ["ok"] "ls" 2 (1/4) 5, mkStep ["done"] "a" 6 (1/5) 1]

/-- The overlapping two-step configuration. -/
def cfgC1 : Config := mkConfig c4steps false

/-- Two overlapping hold-only steps: the aggregator, running on the
unresolved starts, undercounts the cycle badly here. -/
def cfgC2 : Config := mkConfig [mkStep ["a"] "" 0 0 5, mkStep ["b"] "" 0 0 5] false

/-- A two-step configuration already satisfying the no-overlap
invariant (first step ends at 1.2 s, second starts at 2 s). -/
def cfgC2r : Config := mkConfig [mkStep ["a"] "x" 0 (1/5) 1, mkStep ["b"] "" 2 0 1] false

/-- A one-step non-looping configuration with a nonempty command. -/
def cfgC3 : Config := mkConfig [mkStep ["hi"] "ab" 1 (1/5) 1] false

/-- A one-step looping configuration: its line-group fade-out starts
exactly at 100 percent of the cycle, so the rounded fade-out end
exceeds 100. -/
def cfgC5 : Config := mkConfig [mkStep ["hi"] "" 1 (1/5) 1] true

/-- A one-step non-looping configuration with nonempty lines. -/
def cfgC6 : Config := mkConfig [mkStep ["hi"] "a" 1 (1/5) 1] false

/-- One hold-only step, compiled below in loop and non-loop mode. -/
def cfgC7loop : Config := mkConfig [mkStep ["x"] "" 0 0 0] true

/-- The same single step as cfgC7loop with loop disabled. -/
def cfgC7nonloop : Config := mkConfig [mkStep ["x"] "" 0 0 0] false

/-- A configuration with a negative step start: the compiler accepts it
and emits a negative begin percentage. -/
def cfgC9 : Config :=
  mkConfig [mkStep ["x"] "a" (-1) (1/5) 1, mkStep ["y"] "" 0 0 0] false

/-- The empty-steps configuration rejected by the main guard. -/
def cfgEmpty : Config := mkConfig [] false

/-- A resolved two-step non-looping configuration with content in every
step (second start 9 s is after the first end 1.2 s plus the gap). -/
def cfgC10 : Config := mkConfig [mkStep ["a"] "x" 0 (1/5) 1, mkStep ["b"] "y" 9 (1/5) 1] false

/-! Helper lemmas about the rounding function. -/

theorem round4_rep (q : ℚ) : ∃ m : ℤ, round4 q = (m : ℚ) / 10000 :=
  ⟨⌊q * 10000 + 1/2⌋, rfl⟩

theorem round4_mono {x y : ℚ} (h : x ≤ y) : round4 x ≤ round4 y := by
  unfold round4
  have hf : ⌊x * 10000 + 1/2⌋ ≤ ⌊y * 10000 + 1/2⌋ := Int.floor_le_floor (by linarith)
  have hq : ((⌊x * 10000 + 1/2⌋ : ℤ) : ℚ) ≤ ((⌊y * 10000 + 1/2⌋ : ℤ) : ℚ) := by
    exact_mod_cast hf
  linarith

theorem round4_nonneg {q : ℚ} (h : 0 ≤ q) : 0 ≤ round4 q := by
  unfold round4
  have hz : (0 : ℤ) ≤ ⌊q * 10000 + 1/2⌋ := by
    apply Int.le_floor.mpr
    push_cast
    linarith
  have hq : (0 : ℚ) ≤ ((⌊q * 10000 + 1/2⌋ : ℤ) : ℚ) := by exact_mod_cast hz
  linarith

theorem le_round4_add {x δ : ℚ} (hx : ∃ m : ℤ, x = (m : ℚ) / 10000) (hδ : 0 ≤ δ) :
    x ≤ round4 (x + δ) := by
  obtain ⟨m, rfl⟩ := hx
  unfold round4
  have hexp : ((m : ℚ) / 10000 + δ) * 10000 + 1/2 = (m : ℚ) + (δ * 10000 + 1/2) := by
    ring
  have h1 : (m : ℚ) ≤ ((m : ℚ) / 10000 + δ) * 10000 + 1/2 := by
    rw [hexp]; linarith
  have h2 : m ≤ ⌊((m : ℚ) / 10000 + δ) * 10000 + 1/2⌋ := Int.le_floor.mpr h1
  have h3 : (m : ℚ) ≤ ((⌊((m : ℚ) / 10000 + δ) * 10000 + 1/2⌋ : ℤ) : ℚ) := by
    exact_mod_cast h2
  linarith

theorem toPct_nonneg {t total : ℚ} (ht : 0 ≤ t) (htot : 0 < total) : 0 ≤ toPct t total :=
  round4_nonneg (by positivity)

theorem toPct_mono {a b total : ℚ} (htot : 0 < total) (h : a ≤ b) :
    toPct a total ≤ toPct b total := by
  unfold toPct
  apply round4_mono
  gcongr

/-! Helper lemmas about the overlap resolver. -/

theorem resolveGo_length (p : TerminalStep) (l : List TerminalStep) :
    (resolveGo p l).length = l.length := by
  induction l generalizing p with
  | nil => rfl
  | cons s rest ih => simp [resolveGo, ih]

theorem resolveSteps_length (ss : List TerminalStep) :
    (resolveSteps ss).length = ss.length := by
  cases ss with
  | nil => rfl
  | cons s rest => simp [resolveSteps, resolveGo_length]

theorem resolveOne_eq (prev s : TerminalStep) :
    resolveOne prev s = setStart s (max s.timing.start (prevEndTime prev)) := by
  unfold resolveOne
  rcases lt_or_le s.timing.start (prevEndTime prev) with h | h
  · rw [if_pos h, max_eq_right h.le]
  · rw [if_neg (not_lt.mpr h), max_eq_left h]
    rfl

theorem resolveOne_start (prev s : TerminalStep) :
    (resolveOne prev s).timing.start = max s.timing.start (prevEndTime prev) := by
  rw [resolveOne_eq]; rfl

theorem resolveGo_getD_zero (p : TerminalStep) (l : List TerminalStep) (h : 0 < l.length) :
    (resolveGo p l).getD 0 dummyStep = resolveOne p (l.getD 0 dummyStep) := by
  cases l with
  | nil => simp at h
  | cons s rest => simp only [resolveGo, List.getD_cons_zero]

theorem resolveGo_getD_succ (p : TerminalStep) (l : List TerminalStep) (i : ℕ)
    (h : i + 1 < l.length) :
    (resolveGo p l).getD (i + 1) dummyStep =
      resolveOne ((resolveGo p l).getD i dummyStep) (l.getD (i + 1) dummyStep) := by
  induction l generalizing p i with
  | nil => simp at h
  | cons s rest ih =>
    cases i with
    | zero =>
      have hr : 0 < rest.length := by
        simpa using h
      simp only [resolveGo, List.getD_cons_succ, List.getD_cons_zero]
      exact resolveGo_getD_zero _ _ hr
    | succ j =>
      have hr : j + 1 < rest.length := by
        simpa using h
      simp only [resolveGo, List.getD_cons_succ]
      exact ih _ _ hr

theorem resolveSteps_getD_zero (ss : List TerminalStep) :
    (resolveSteps ss).getD 0 dummyStep = ss.getD 0 dummyStep := by
  cases ss with
  | nil => rfl
  | cons s rest => simp only [resolveSteps, List.getD_cons_zero]

theorem resolveSteps_getD_succ (ss : List TerminalStep) (i : ℕ) (h : i + 1 < ss.length) :
    (resolveSteps ss).getD (i + 1) dummyStep =
      resolveOne ((resolveSteps ss).getD i dummyStep) (ss.getD (i + 1) dummyStep) := by
  cases ss with
  | nil => simp at h
  | cons s rest =>
    cases i with
    | zero =>
      have hr : 0 < rest.length := by
        simpa using h
      simp only [resolveSteps, List.getD_cons_succ, List.getD_cons_zero]
      exact resolveGo_getD_zero _ _ hr
    | succ j =>
      have hr : j + 1 < rest.length := by
        simpa using h
      simp only [resolveSteps, List.getD_cons_succ]
      exact resolveGo_getD_succ _ _ _ hr

theorem resolveSteps_getD_fields (ss : List TerminalStep) (i : ℕ) (h : i < ss.length) :
    ((resolveSteps ss).getD i dummyStep).command = (ss.getD i dummyStep).command ∧
    ((resolveSteps ss).getD i dummyStep).timing.perChar =
      (ss.getD i dummyStep).timing.perChar ∧
    ((resolveSteps ss).getD i dummyStep).timing.hold = (ss.getD i dummyStep).timing.hold := by
  cases i with
  | zero =>
    rw [resolveSteps_getD_zero]
    exact ⟨rfl, rfl, rfl⟩
  | succ j =>
    rw [resolveSteps_getD_succ _ _ h, resolveOne_eq]
    exact ⟨rfl, rfl, rfl⟩

theorem resolveGo_noop (p : TerminalStep) (l : List TerminalStep)
    (h : List.Chain' (fun a b => prevEndTime a ≤ b.timing.start) (p :: l)) :
    resolveGo p l = l := by
  induction l generalizing p with
  | nil => rfl
  | cons s rest ih =>
    rw [List.chain'_cons] at h
    have h1 : resolveOne p s = s := by
      unfold resolveOne
      rw [if_neg (not_lt.mpr h.1)]
    show resolveOne p s :: resolveGo (resolveOne p s) rest = s :: rest
    rw [h1, ih s h.2]

theorem resolveSteps_noop (ss : List TerminalStep) (h : isResolved ss) :
    resolveSteps ss = ss := by
  cases ss with
  | nil => rfl
  | cons s rest =>
    show s :: resolveGo s rest = s :: rest
    rw [resolveGo_noop s rest h]

/-! Helper lemmas about the duration aggregator. -/

theorem prevEndTime_eq (s : TerminalStep) :
    prevEndTime s = stepEnd s + TIMINGS.STEP_TRANSITION := by
  unfold prevEndTime stepEnd stepDuration
  ring

theorem stepDuration_nonneg {s : TerminalStep} (hp : 0 ≤ s.timing.perChar)
    (hh : 0 ≤ s.timing.hold) : 0 ≤ stepDuration s := by
  unfold stepDuration
  have h1 : (0 : ℚ) ≤ (s.command.length : ℚ) * s.timing.perChar :=
    mul_nonneg (by positivity) hp
  linarith

theorem totalTimeGo_resolved (loop : Bool) (l : List TerminalStep) :
    ∀ acc : ℚ, l ≠ [] →
      List.Chain' (fun a b => prevEndTime a ≤ b.timing.start) l →
      (∀ s ∈ l, 0 ≤ s.timing.perChar ∧ 0 ≤ s.timing.hold) →
      acc ≤ stepEnd l.headI →
      totalTimeGo loop acc l =
        stepEnd (l.getLast?.getD dummyStep) +
          (if loop then TIMINGS.LAST_STEP_EXTRA_TIME else 0) := by
  induction l with
  | nil => intro acc hne; exact absurd rfl hne
  | cons s rest ih =>
    intro acc _ hchain hnn hacc
    cases rest with
    | nil =>
      have hextra : (0 : ℚ) ≤ (if loop then TIMINGS.LAST_STEP_EXTRA_TIME else 0) := by
        cases loop <;> norm_num [TIMINGS]
      have haccs : acc ≤ stepEnd s := hacc
      simp only [totalTimeGo, List.getLast?_singleton, Option.getD_some]
      rw [max_eq_right (by linarith)]
    | cons s2 rest2 =>
      rw [List.chain'_cons] at hchain
      have hmem2 : s2 ∈ s :: s2 :: rest2 := by simp
      have hd2 : 0 ≤ stepDuration s2 :=
        stepDuration_nonneg (hnn s2 hmem2).1 (hnn s2 hmem2).2
      have haccs : acc ≤ stepEnd s := hacc
      have hgap : prevEndTime s ≤ s2.timing.start := hchain.1
      have hacc2 : stepEnd s + TIMINGS.STEP_TRANSITION ≤ stepEnd (s2 :: rest2).headI := by
        rw [prevEndTime_eq] at hgap
        show stepEnd s + TIMINGS.STEP_TRANSITION ≤ stepEnd s2
        have hs2 : stepEnd s2 = s2.timing.start + stepDuration s2 := rfl
        linarith
      have hstep : totalTimeGo loop acc (s :: s2 :: rest2) =
          totalTimeGo loop (max acc (stepEnd s) + TIMINGS.STEP_TRANSITION) (s2 :: rest2) := rfl
      rw [hstep, max_eq_right haccs,
        ih (stepEnd s + TIMINGS.STEP_TRANSITION) (by simp) hchain.2
          (fun t ht => hnn t (List.mem_cons_of_mem s ht)) hacc2]
      simp only [List.getLast?_cons_cons]

theorem computeTotal_resolved_eq (cfg : Config) (hne : cfg.steps ≠ [])
    (hres : isResolved cfg.steps) (hnn : validTiming cfg.steps) :
    computeTotalAnimationTime cfg =
      stepEnd (cfg.steps.getLast?.getD dummyStep) +
        (if cfg.loop then TIMINGS.LAST_STEP_EXTRA_TIME + TIMINGS.LOOP_EXTRA_TIME
         else TIMINGS.NON_LOOP_EXTRA_TIME) := by
  have hacc0 : (0 : ℚ) ≤ stepEnd cfg.steps.headI := by
    cases hs : cfg.steps with
    | nil => exact absurd hs hne
    | cons s rest =>
      have hmem : s ∈ cfg.steps := by rw [hs]; simp
      have h1 := hnn s hmem
      have h2 := stepDuration_nonneg h1.2.1 h1.2.2
      show (0 : ℚ) ≤ stepEnd s
      unfold stepEnd
      linarith [h1.1]
  unfold computeTotalAnimationTime
  rw [totalTimeGo_resolved cfg.loop cfg.steps 0 hne hres
    (fun s hs => ⟨(hnn s hs).2.1, (hnn s hs).2.2⟩) hacc0]
  cases cfg.loop with
  | false => simp
  | true => simp; ring

/-! Helper lemmas locating each emitted part at its step index. -/

theorem partsAppend_fst (a b : RenderParts) : (partsAppend a b).1 = a.1 ++ b.1 := rfl

theorem partsAppend_kfs (a b : RenderParts) : (partsAppend a b).2.1 = a.2.1 ++ b.2.1 := rfl

theorem renderLinesM_frag (config : Config) (td cm : ℚ) (sl : Bool)
    (prev : Option TerminalStep) (lines : List String) (f : ℚ) (index : ℕ) (last : Bool) :
    ∀ fr ∈ (renderLinesM config td cm sl prev lines f index last).1,
      fr.kind = FragKind.lines ∧ fr.stepIndex = index := by
  intro fr hfr
  by_cases h : lines.isEmpty
  · simp [renderLinesM, h] at hfr
  · simp [renderLinesM, h] at hfr
    rw [hfr]
    exact ⟨rfl, rfl⟩

theorem renderLinesM_kf (config : Config) (td cm : ℚ) (sl : Bool)
    (prev : Option TerminalStep) (lines : List String) (f : ℚ) (index : ℕ) (last : Bool) :
    ∀ kf ∈ (renderLinesM config td cm sl prev lines f index last).2.1,
      kf.kind = KFKind.lineFade ∧ kf.stepIndex = index := by
  intro kf hkf
  by_cases h : lines.isEmpty
  · simp [renderLinesM, h] at hkf
  · simp [renderLinesM, h] at hkf
    rw [hkf]
    exact ⟨rfl, rfl⟩

theorem renderPromptM_frag (config : Config) (prompt : ShellPrompt) (x : ℚ) (idx : ℕ) :
    ∀ fr ∈ (renderPromptM config prompt x idx).1,
      fr.kind = FragKind.prompt ∧ fr.stepIndex = idx := by
  intro fr hfr
  simp [renderPromptM] at hfr
  rw [hfr]
  exact ⟨rfl, rfl⟩

theorem renderPromptM_kfs (config : Config) (prompt : ShellPrompt) (x : ℚ) (idx : ℕ) :
    (renderPromptM config prompt x idx).2.1 = [] := rfl

theorem renderCommandM_frag (config : Config) (td cm : ℚ) (sl : Bool) (command : String)
    (timing : Timing) (x : ℚ) (idx : ℕ) (last : Bool) :
    ∀ fr ∈ (renderCommandM config td cm sl command timing x idx last).1,
      fr.kind = FragKind.command ∧ fr.stepIndex = idx := by
  intro fr hfr
  by_cases h : command.isEmpty
  · simp [renderCommandM, h] at hfr
  · simp [renderCommandM, h] at hfr
    rw [hfr]
    exact ⟨rfl, rfl⟩

theorem renderCommandM_kf (config : Config) (td cm : ℚ) (sl : Bool) (command : String)
    (timing : Timing) (x : ℚ) (idx : ℕ) (last : Bool) :
    ∀ kf ∈ (renderCommandM config td cm sl command timing x idx last).2.1,
      kf.stepIndex = idx := by
  intro kf hkf
  by_cases h : command.isEmpty
  · simp [renderCommandM, h] at hkf
  · simp [renderCommandM, h] at hkf
    rcases hkf with h1 | ⟨i, hi, h2⟩
    · rw [h1]
    · rw [← h2]

theorem buildSteps_parts (config : Config) (td cm : ℚ) (sl : Bool)
    (hloop : config.loop = false) :
    ∀ (l : List TerminalStep) (index : ℕ) (prev : Option TerminalStep),
      (∀ fr ∈ (buildSteps config td cm sl index prev l).1,
        index ≤ fr.stepIndex ∧ fr.stepIndex + 1 ≤ index + l.length ∧
          (fr.stepIndex + 1 = index + l.length → fr.kind = FragKind.lines)) ∧
      (∀ kf ∈ (buildSteps config td cm sl index prev l).2.1,
        index ≤ kf.stepIndex ∧ kf.stepIndex + 1 ≤ index + l.length ∧
          (kf.stepIndex + 1 = index + l.length → kf.kind = KFKind.lineFade)) := by
  intro l
  induction l with
  | nil =>
    intro index prev
    constructor
    · intro fr hfr
      simp [buildSteps] at hfr
    · intro kf hkf
      simp [buildSteps] at hkf
  | cons step rest ih =>
    intro index prev
    cases rest with
    | nil =>
      have hnil : buildSteps config td cm sl (index + 1) (some step) [] = ([], [], []) := rfl
      constructor
      · intro fr hfr
        rw [buildSteps] at hfr
        simp [hloop, hnil, partsAppend_fst] at hfr
        obtain ⟨hk, hi⟩ := renderLinesM_frag config td cm sl prev step.terminalLines
          (stepEnd step) index true fr hfr
        simp only [List.length_cons, List.length_nil]
        exact ⟨by omega, by omega, fun _ => hk⟩
      · intro kf hkf
        rw [buildSteps] at hkf
        simp [hloop, hnil, partsAppend_kfs] at hkf
        obtain ⟨hk, hi⟩ := renderLinesM_kf config td cm sl prev step.terminalLines
          (stepEnd step) index true kf hkf
        simp only [List.length_cons, List.length_nil]
        exact ⟨by omega, by omega, fun _ => hk⟩
    | cons s2 rest2 =>
      constructor
      · intro fr hfr
        rw [buildSteps] at hfr
        simp [hloop, partsAppend_fst, renderPromptM_kfs] at hfr
        simp only [List.length_cons]
        rcases hfr with h1 | h2 | h3 | h4
        · obtain ⟨hk, hi⟩ := renderLinesM_frag config td cm sl prev step.terminalLines
            (stepEnd step) index false fr h1
          exact ⟨by omega, by omega, fun habs => absurd habs (by omega)⟩
        · obtain ⟨hk, hi⟩ := renderPromptM_frag config step.shellPrompt
            ((step.position.bind fun p => p.promptX).getD 20) index fr h2
          exact ⟨by omega, by omega, fun habs => absurd habs (by omega)⟩
        · obtain ⟨hk, hi⟩ := renderCommandM_frag config td cm sl step.command step.timing
            ((step.position.bind fun p => p.commandX).getD
              ((step.position.bind fun p => p.promptX).getD 20 +
                calcPromptWidth config step.shellPrompt + 5)) index false fr h3
          exact ⟨by omega, by omega, fun habs => absurd habs (by omega)⟩
        · obtain ⟨ha, hb, hc⟩ := (ih (index + 1) (some step)).1 fr h4
          simp only [List.length_cons] at hb hc
          exact ⟨by omega, by omega, fun habs => hc (by omega)⟩
      · intro kf hkf
        rw [buildSteps] at hkf
        simp [hloop, partsAppend_kfs, renderPromptM_kfs] at hkf
        simp only [List.length_cons]
        rcases hkf with h1 | h3 | h4
        · obtain ⟨hk, hi⟩ := renderLinesM_kf config td cm sl prev step.terminalLines
            (stepEnd step) index false kf h1
          exact ⟨by omega, by omega, fun habs => absurd habs (by omega)⟩
        · have hi := renderCommandM_kf config td cm sl step.command step.timing
            ((step.position.bind fun p => p.commandX).getD
              ((step.position.bind fun p => p.promptX).getD 20 +
                calcPromptWidth config step.shellPrompt + 5)) index false kf h3
          exact ⟨by omega, by omega, fun habs => absurd habs (by omega)⟩
        · obtain ⟨ha, hb, hc⟩ := (ih (index + 1) (some step)).2 kf h4
          simp only [List.length_cons] at hb hc
          exact ⟨by omega, by omega, fun habs => hc (by omega)⟩

/-! Literal string evaluation facts used by the concrete examples. -/

theorem len_ls : ("ls" : String).length = 2 := rfl

theorem len_a : ("a" : String).length = 1 := rfl

theorem len_ab : ("ab" : String).length = 2 := rfl

theorem len_x : ("x" : String).length = 1 := rfl

theorem len_y : ("y" : String).length = 1 := rfl

theorem len_nil : ("" : String).length = 0 := rfl

theorem isEmpty_a : ("a" : String).isEmpty = false := rfl

theorem isEmpty_x : ("x" : String).isEmpty = false := rfl

theorem isEmpty_y : ("y" : String).isEmpty = false := rfl

theorem isEmpty_ab : ("ab" : String).isEmpty = false := rfl

theorem isEmpty_nil : ("" : String).isEmpty = true := rfl

/-! Projection lemmas for the assembled document. -/

theorem buildSVGOut_content (cfg : Config) (b : String) (f : Bool) :
    (buildSVGOut cfg b f).content =
      (buildSteps cfg (computeTotalAnimationTime cfg) (computeTotalAnimationTime cfg * 1000)
        (f || cfg.loop) 0 none (resolveSteps cfg.steps)).1 := rfl

theorem buildSVGOut_cssKeyframes (cfg : Config) (b : String) (f : Bool) :
    (buildSVGOut cfg b f).cssKeyframes =
      (buildSteps cfg (computeTotalAnimationTime cfg) (computeTotalAnimationTime cfg * 1000)
        (f || cfg.loop) 0 none (resolveSteps cfg.steps)).2.1 := rfl

/-- C1: the spec requires that buildSVG leave the caller configuration
deeply equal to its value before the call, with all overlap adjustments
made on copies.  The code violates this: at this overlapping two-step
input, the call with forceLoop = true writes the resolved start 8 into
the second step of the caller configuration (its value before the call
was 6), so the configuration observed after the call differs from the
one passed in. -/
theorem buildSVG_mutates_caller_config :
    (cfgC1.steps.getD 1 dummyStep).timing.start = 6 ∧
    ((buildSVGFull cfgC1 "build" true).2.steps.getD 1 dummyStep).timing.start = 8 ∧
    (buildSVGFull cfgC1 "build" true).2 ≠ cfgC1 := by
  have hres : ((buildSVGFull cfgC1 "build" true).2.steps.getD 1 dummyStep).timing.start = 8 := by
    show (((resolveSteps cfgC1.steps).getD 1 dummyStep)).timing.start = 8
    norm_num [cfgC1, c4steps, mkConfig, mkStep, resolveSteps, resolveGo, resolveOne,
      prevEndTime, setStart, TIMINGS, len_ls, len_a]
  refine ⟨rfl, hres, ?_⟩
  intro h
  have h2 := congrArg (fun c => (c.steps.getD 1 dummyStep).timing.start) h
  simp only at h2
  rw [hres] at h2
  norm_num [cfgC1, c4steps, mkConfig, mkStep] at h2

/-! Facts about the concrete resolved configuration cfgC2r, shared by
several witnesses. -/

theorem cfgC2r_ne : cfgC2r.steps ≠ [] := by
  simp [cfgC2r, mkConfig]

theorem cfgC2r_resolved : isResolved cfgC2r.steps := by
  simp only [isResolved, cfgC2r, mkConfig, List.chain'_cons, List.chain'_singleton, and_true]
  norm_num [prevEndTime, mkStep, TIMINGS, len_x]

theorem cfgC2r_valid : validTiming cfgC2r.steps := by
  intro s hs
  simp only [cfgC2r, mkConfig, List.mem_cons, List.not_mem_nil, or_false] at hs
  rcases hs with rfl | rfl <;> norm_num [mkStep]

/-- C2: the claim asserts that totalDuration is computed from the
overlap-resolved steps and always strictly exceeds the end of the last
resolved step when not looping.  It fails: buildSVG computes
totalDuration before the overlap resolution, from the starts as passed
in, and on this overlapping non-looping input the computed totalDuration
(6 s) is smaller than the end of the last resolved step (10.5 s). -/
theorem totalDuration_not_from_resolved :
    cfgC2.loop = false ∧
    computeTotalAnimationTime cfgC2 = 6 ∧
    stepEnd ((resolveSteps cfgC2.steps).getD 1 dummyStep) = 21/2 ∧
    computeTotalAnimationTime cfgC2 <
      stepEnd ((resolveSteps cfgC2.steps).getD 1 dummyStep) := by
  have h1 : computeTotalAnimationTime cfgC2 = 6 := by
    norm_num [computeTotalAnimationTime, totalTimeGo, stepEnd, stepDuration, cfgC2,
      mkConfig, mkStep, TIMINGS, len_nil, max_def]
  have h2 : stepEnd ((resolveSteps cfgC2.steps).getD 1 dummyStep) = 21/2 := by
    norm_num [cfgC2, mkConfig, mkStep, resolveSteps, resolveGo, resolveOne, prevEndTime,
      setStart, TIMINGS, len_nil, stepEnd, stepDuration]
  exact ⟨rfl, h1, h2, by rw [h1, h2]; norm_num⟩

/-- C2 (amended): totalDuration is computed from the steps as passed
in, before the overlap resolution embedded in the render loop.  For a
configuration whose steps already satisfy the no-overlap invariant and
the nonnegative-timing invariant, totalDuration equals the end of the
last step plus NON_LOOP_EXTRA_TIME when not looping and plus
LAST_STEP_EXTRA_TIME plus LOOP_EXTRA_TIME when looping, and in either
mode is strictly greater than the end of the last (equal to last
resolved) step. -/
theorem computeTotal_resolved_spec (cfg : Config) (hne : cfg.steps ≠ [])
    (hres : isResolved cfg.steps) (hnn : validTiming cfg.steps) :
    computeTotalAnimationTime cfg =
      stepEnd (cfg.steps.getLast?.getD dummyStep) +
        (if cfg.loop then TIMINGS.LAST_STEP_EXTRA_TIME + TIMINGS.LOOP_EXTRA_TIME
         else TIMINGS.NON_LOOP_EXTRA_TIME) ∧
    stepEnd (cfg.steps.getLast?.getD dummyStep) < computeTotalAnimationTime cfg := by
  have h := computeTotal_resolved_eq cfg hne hres hnn
  refine ⟨h, ?_⟩
  rw [h]
  cases cfg.loop with
  | false => norm_num [TIMINGS]
  | true => norm_num [TIMINGS]

/-- Witness for C2 at the concrete resolved configuration cfgC2r. -/
theorem computeTotal_resolved_spec_witness :
    computeTotalAnimationTime cfgC2r =
      stepEnd (cfgC2r.steps.getLast?.getD dummyStep) + TIMINGS.NON_LOOP_EXTRA_TIME ∧
    stepEnd (cfgC2r.steps.getLast?.getD dummyStep) < computeTotalAnimationTime cfgC2r := by
  have h := computeTotal_resolved_spec cfgC2r cfgC2r_ne cfgC2r_resolved cfgC2r_valid
  refine ⟨?_, h.2⟩
  have h1 := h.1
  simpa [cfgC2r, mkConfig] using h1

/-- C3: the claim asserts that buildSVG with forceLoop = true produces
the same document as buildSVG on the same configuration with loop set
to true.  It fails: forceLoop only switches the iteration count of the
emitted animation rules, while totalDuration, the last-step extra pause
and the rendering of the final prompt and command still follow the
configured loop flag.  On this one-step non-looping input the two
documents already differ in their data-duration attribute (2.9 s
versus 3.4 s). -/
theorem forceLoop_not_equiv_loop :
    (buildSVGOut cfgC3 "build" true).totalDuration = 29/10 ∧
    (buildSVGOut { cfgC3 with loop := true } "build" false).totalDuration = 17/5 ∧
    buildSVGOut cfgC3 "build" true ≠ buildSVGOut { cfgC3 with loop := true } "build" false := by
  have h1 : (buildSVGOut cfgC3 "build" true).totalDuration = 29/10 := by
    norm_num [buildSVGOut, computeTotalAnimationTime, totalTimeGo, stepEnd, stepDuration,
      cfgC3, mkConfig, mkStep, TIMINGS, len_ab, max_def]
  have h2 : (buildSVGOut { cfgC3 with loop := true } "build" false).totalDuration = 17/5 := by
    norm_num [buildSVGOut, computeTotalAnimationTime, totalTimeGo, stepEnd, stepDuration,
      cfgC3, mkConfig, mkStep, TIMINGS, len_ab, max_def]
  refine ⟨h1, h2, ?_⟩
  intro h
  have h3 := congrArg BuildOutput.totalDuration h
  rw [h1, h2] at h3
  norm_num at h3

/-- C3 (amended): the forceLoop flag only feeds the shouldLoop
disjunction, so whenever the configured loop flag is already true the
flag changes nothing: the produced document is identical with and
without it.  Together with the counterexample this bounds what
forceLoop does: it never reproduces the loop = true document from a
loop = false configuration; it only forces the infinite iteration
count. -/
theorem forceLoop_noop_when_loop (cfg : Config) (b : String) (f : Bool)
    (h : cfg.loop = true) :
    buildSVGOut cfg b f = buildSVGOut cfg b false := by
  simp only [buildSVGOut, h, Bool.or_true, Bool.or_false]

/-- Witness for C3 at the concrete looping configuration cfgC5. -/
theorem forceLoop_noop_when_loop_witness :
    buildSVGOut cfgC5 "build" true = buildSVGOut cfgC5 "build" false :=
  forceLoop_noop_when_loop cfgC5 "build" true rfl

theorem getD_mem_of_lt {l : List TerminalStep} {i : ℕ} (h : i < l.length) :
    l.getD i dummyStep ∈ l := by
  rw [List.getD_eq_getElem l dummyStep h]
  exact List.getElem_mem h

/-- C4: the overlap resolver keeps the length and the first step
unchanged, sets every later resolved start to the maximum of the input
start and the previous resolved end plus the fixed 0.5 s gap
(prevEndTime), never lowers any start below its input value, and under
the nonnegative-timing invariant of the data model produces
non-decreasing resolved starts. -/
theorem resolveSteps_spec (ss : List TerminalStep) (hval : validTiming ss) :
    (resolveSteps ss).length = ss.length ∧
    (resolveSteps ss).getD 0 dummyStep = ss.getD 0 dummyStep ∧
    (∀ i, i + 1 < ss.length →
      ((resolveSteps ss).getD (i + 1) dummyStep).timing.start =
        max ((ss.getD (i + 1) dummyStep).timing.start)
          (prevEndTime ((resolveSteps ss).getD i dummyStep))) ∧
    (∀ i, i < ss.length →
      (ss.getD i dummyStep).timing.start ≤
        ((resolveSteps ss).getD i dummyStep).timing.start) ∧
    (∀ i, i + 1 < ss.length →
      ((resolveSteps ss).getD i dummyStep).timing.start ≤
        ((resolveSteps ss).getD (i + 1) dummyStep).timing.start) := by
  refine ⟨resolveSteps_length ss, resolveSteps_getD_zero ss, ?_, ?_, ?_⟩
  · intro i h
    rw [resolveSteps_getD_succ ss i h, resolveOne_start]
  · intro i h
    cases i with
    | zero =>
      rw [resolveSteps_getD_zero]
    | succ j =>
      rw [resolveSteps_getD_succ ss j h, resolveOne_start]
      exact le_max_left _ _
  · intro i h
    rw [resolveSteps_getD_succ ss i h, resolveOne_start]
    have hfields := resolveSteps_getD_fields ss i (by omega)
    have hnn := hval _ (getD_mem_of_lt (by omega : i < ss.length))
    have h1 : ((resolveSteps ss).getD i dummyStep).timing.start ≤
        prevEndTime ((resolveSteps ss).getD i dummyStep) := by
      have hp : 0 ≤ ((resolveSteps ss).getD i dummyStep).timing.perChar := by
        rw [hfields.2.1]; exact hnn.2.1
      have hh : 0 ≤ ((resolveSteps ss).getD i dummyStep).timing.hold := by
        rw [hfields.2.2]; exact hnn.2.2
      have hc : (0 : ℚ) ≤ (((resolveSteps ss).getD i dummyStep).command.length : ℚ) := by
        positivity
      have hst : TIMINGS.STEP_TRANSITION = 1/2 := rfl
      have hmul : (0 : ℚ) ≤ (((resolveSteps ss).getD i dummyStep).command.length : ℚ) *
          ((resolveSteps ss).getD i dummyStep).timing.perChar := mul_nonneg hc hp
      unfold prevEndTime
      linarith
    exact le_trans h1 (le_max_right _ _)

/-- Witness for C4: on the concrete overlapping pair (first step ends
at 7.5 s, gap 0.5 s, second nominal start 6 s) the resolver moves the
second start to exactly 8 s, the maximum prescribed by the
resolution equation. -/
theorem resolveSteps_spec_witness :
    ((resolveSteps c4steps).getD 1 dummyStep).timing.start =
      max ((c4steps.getD 1 dummyStep).timing.start)
        (prevEndTime ((resolveSteps c4steps).getD 0 dummyStep)) ∧
    ((resolveSteps c4steps).getD 1 dummyStep).timing.start = 8 ∧
    (c4steps.getD 1 dummyStep).timing.start = 6 := by
  have hval : validTiming c4steps := by
    intro s hs
    simp only [c4steps, List.mem_cons, List.not_mem_nil, or_false] at hs
    rcases hs with rfl | rfl <;> norm_num [mkStep]
  refine ⟨(resolveSteps_spec c4steps hval).2.2.1 0 (by norm_num [c4steps]), ?_, rfl⟩
  norm_num [c4steps, mkStep, resolveSteps, resolveGo, resolveOne, prevEndTime, setStart,
    TIMINGS, len_ls]

/-- C5: the claim requires all emitted percentages to lie within
[0, 100], strictly increasing, with epsilon perturbation or a
DegenerateTimingError on rounding ties.  It fails: the code neither
clamps nor perturbs nor defines any such error, and on this one-step
looping configuration the line-group fade-out begins exactly at 100
percent, so the emitted fade-out end percentage is 106.6667, outside
[0, 100] and above the final keyframe at 100. -/
theorem keyframe_pct_exceeds_100 :
    cfgC5.loop = true ∧
    (((buildSVGOut cfgC5 "build" false).cssKeyframes.getD 0 dummyKF).entries.getD 4
        dummyKeyframe).pct = 1066667/10000 ∧
    100 < (((buildSVGOut cfgC5 "build" false).cssKeyframes.getD 0 dummyKF).entries.getD 4
        dummyKeyframe).pct := by
  have h : (((buildSVGOut cfgC5 "build" false).cssKeyframes.getD 0 dummyKF).entries.getD 4
      dummyKeyframe).pct = 1066667/10000 := by
    rw [buildSVGOut_cssKeyframes]
    norm_num [buildSteps, renderLinesM, renderPromptM, renderCommandM, partsAppend,
      lineFadeEntries, animateStartOf, toPct, round4, computeTotalAnimationTime, totalTimeGo,
      stepEnd, stepDuration, resolveSteps, resolveGo, resolveOne, prevEndTime, setStart,
      cfgC5, mkConfig, mkStep, TIMINGS, len_nil, isEmpty_nil, max_def]
  exact ⟨rfl, h, by rw [h]; norm_num⟩

/-- C5 (amended): percentages are produced by four-decimal rounding
with no clamping, no tie perturbation and no degenerate-timing
rejection.  What does hold: within one line-group keyframe definition
the rounded fade-in pair and fade-out pair are each ordered (start at
most end) and nonnegative whenever the event times are nonnegative and
the cycle is positive, and character begin percentages are monotone
(not strictly: rounding ties are kept) in the character index when
perChar is nonnegative. -/
theorem keyframe_rounding_spec :
    (∀ animateStart fadeOutAt totalDuration : ℚ,
      0 < totalDuration → 0 ≤ animateStart → 0 ≤ fadeOutAt →
      0 ≤ ((lineFadeEntries animateStart fadeOutAt totalDuration).getD 1 dummyKeyframe).pct ∧
      ((lineFadeEntries animateStart fadeOutAt totalDuration).getD 1 dummyKeyframe).pct ≤
        ((lineFadeEntries animateStart fadeOutAt totalDuration).getD 2 dummyKeyframe).pct ∧
      0 ≤ ((lineFadeEntries animateStart fadeOutAt totalDuration).getD 3 dummyKeyframe).pct ∧
      ((lineFadeEntries animateStart fadeOutAt totalDuration).getD 3 dummyKeyframe).pct ≤
        ((lineFadeEntries animateStart fadeOutAt totalDuration).getD 4 dummyKeyframe).pct) ∧
    (∀ (start perChar total : ℚ) (i : ℕ), 0 < total → 0 ≤ perChar →
      toPct (start + (i : ℚ) * perChar) total ≤
        toPct (start + ((i : ℚ) + 1) * perChar) total) := by
  constructor
  · intro a f T hT ha hf
    have hδ : (0 : ℚ) ≤ 2/10 / T * 100 :=
      mul_nonneg (div_nonneg (by norm_num) hT.le) (by norm_num)
    simp only [lineFadeEntries, List.getD_cons_succ, List.getD_cons_zero, toPct]
    exact ⟨round4_nonneg (by positivity), le_round4_add (round4_rep _) hδ,
      round4_nonneg (by positivity), le_round4_add (round4_rep _) hδ⟩
  · intro start perChar total i hT hp
    apply toPct_mono hT
    have hexp : ((i : ℚ) + 1) * perChar = (i : ℚ) * perChar + perChar := by ring
    linarith
/-- Witness for C5 at concrete values: animate start 0, fade-out 3,
cycle 3 and one character step. -/
theorem keyframe_rounding_spec_witness :
    (0 ≤ ((lineFadeEntries 0 3 3).getD 1 dummyKeyframe).pct ∧
      ((lineFadeEntries 0 3 3).getD 1 dummyKeyframe).pct ≤
        ((lineFadeEntries 0 3 3).getD 2 dummyKeyframe).pct ∧
      0 ≤ ((lineFadeEntries 0 3 3).getD 3 dummyKeyframe).pct ∧
      ((lineFadeEntries 0 3 3).getD 3 dummyKeyframe).pct ≤
        ((lineFadeEntries 0 3 3).getD 4 dummyKeyframe).pct) ∧
    toPct (0 + ((0 : ℕ) : ℚ) * 1) 3 ≤ toPct (0 + (((0 : ℕ) : ℚ) + 1) * 1) 3 :=
  ⟨keyframe_rounding_spec.1 0 3 3 (by norm_num) le_rfl (by norm_num),
   keyframe_rounding_spec.2 0 1 3 0 (by norm_num) (by norm_num)⟩

/-- C6: the claim states that for the final step of a non-looping
configuration no fade-out keyframe is emitted for its line group and
the terminal lines remain visible at 100 percent.  In the CSS
implementation it fails: renderLines always pushes the full six-entry
keyframe list, so on this one-step non-looping input the single emitted
line-group definition fades to opacity 0 after the fade-out start and
is at opacity 0 at the 100 percent keyframe. -/
theorem last_step_fadeout_emitted :
    cfgC6.loop = false ∧
    (buildSVGOut cfgC6 "build" false).cssKeyframes.length = 1 ∧
    ((buildSVGOut cfgC6 "build" false).cssKeyframes.getD 0 dummyKF).kind = KFKind.lineFade ∧
    ((buildSVGOut cfgC6 "build" false).cssKeyframes.getD 0 dummyKF).entries.map
        Keyframe.props =
      ["opacity: 0;", "opacity: 0;", "opacity: 1;", "opacity: 1;", "opacity: 0;",
        "opacity: 0;"] := by
  refine ⟨rfl, ?_, ?_, ?_⟩ <;>
    · rw [buildSVGOut_cssKeyframes]
      simp [buildSteps, renderLinesM, partsAppend, lineFadeEntries, resolveSteps, resolveGo,
        cfgC6, mkConfig, mkStep]

/-- C6 (amended): the no-fade-out behaviour for the final step of a
non-looping animation exists only in the legacy SMIL implementation,
whose renderLines emits no fade-out animate element exactly when the
step is last and shouldLoop is false; the CSS implementation always
emits the fade-out entries, ending every line group at opacity 0. -/
theorem smil_css_lastStep_fadeout :
    (∀ fadeOutAt : ℚ, smilLineFadeOut true false fadeOutAt = none) ∧
    (∀ (isLast shouldLoop : Bool) (f : ℚ),
      smilLineFadeOut isLast shouldLoop f = none ↔ isLast = true ∧ shouldLoop = false) ∧
    (∀ a f T : ℚ,
      (lineFadeEntries a f T).map Keyframe.props =
        ["opacity: 0;", "opacity: 0;", "opacity: 1;", "opacity: 1;", "opacity: 0;",
          "opacity: 0;"]) := by
  refine ⟨fun f => rfl, ?_, fun a f T => rfl⟩
  intro isLast shouldLoop f
  cases isLast <;> cases shouldLoop <;> simp [smilLineFadeOut]

/-- C7: the claim asserts that the trailing constant added after the
per-step pass is larger when looping.  It fails: the code adds
LOOP_EXTRA_TIME = 0 s when looping and NON_LOOP_EXTRA_TIME = 0.5 s when
not, so the looping trailing constant is strictly smaller, as the two
concrete compilations of the same single step show. -/
theorem trailing_constant_not_larger_when_looping :
    TIMINGS.LOOP_EXTRA_TIME < TIMINGS.NON_LOOP_EXTRA_TIME ∧
    computeTotalAnimationTime cfgC7loop =
      totalTimeGo true 0 cfgC7loop.steps + TIMINGS.LOOP_EXTRA_TIME ∧
    computeTotalAnimationTime cfgC7nonloop =
      totalTimeGo false 0 cfgC7nonloop.steps + TIMINGS.NON_LOOP_EXTRA_TIME := by
  refine ⟨by norm_num [TIMINGS], rfl, rfl⟩

/-- C7 (amended): the trailing constant is 0 s for looping output and
0.5 s for non-looping output, so it is smaller when looping; the extra
dwell of a loop comes instead from the 1 s last-step extra pause added
inside the per-step pass, which for an already-resolved configuration
makes the looping totalDuration exceed the non-looping one by a net
0.5 s. -/
theorem trailing_constants_spec (cfg : Config) (hne : cfg.steps ≠ [])
    (hres : isResolved cfg.steps) (hnn : validTiming cfg.steps) :
    TIMINGS.LOOP_EXTRA_TIME = 0 ∧ TIMINGS.NON_LOOP_EXTRA_TIME = 1/2 ∧
    TIMINGS.LAST_STEP_EXTRA_TIME = 1 ∧
    computeTotalAnimationTime { cfg with loop := true } =
      computeTotalAnimationTime { cfg with loop := false } + 1/2 := by
  refine ⟨rfl, rfl, rfl, ?_⟩
  have h1 := computeTotal_resolved_eq { cfg with loop := true } hne hres hnn
  have h2 := computeTotal_resolved_eq { cfg with loop := false } hne hres hnn
  norm_num at h1 h2
  rw [h1, h2, show TIMINGS.LAST_STEP_EXTRA_TIME + TIMINGS.LOOP_EXTRA_TIME = (1 : ℚ) by
      norm_num [TIMINGS],
    show TIMINGS.NON_LOOP_EXTRA_TIME = (1/2 : ℚ) from rfl]
  ring

/-- Witness for C7 at the concrete resolved configuration cfgC2r. -/
theorem trailing_constants_spec_witness :
    computeTotalAnimationTime { cfgC2r with loop := true } =
      computeTotalAnimationTime { cfgC2r with loop := false } + 1/2 :=
  (trailing_constants_spec cfgC2r cfgC2r_ne cfgC2r_resolved cfgC2r_valid).2.2.2

/-- C8: compiling an already-resolved configuration twice in
succession yields identical documents: on resolved steps the in-place
overlap adjustment is the identity, so the configuration the second
call observes equals the first one and the pure document construction
returns the same value, hence byte-identical serialised output and in
particular identical keyframe percentages. -/
theorem buildSVG_idempotent_on_resolved (cfg : Config) (b : String) (f : Bool)
    (hres : isResolved cfg.steps) :
    (buildSVGFull cfg b f).2 = cfg ∧
    (buildSVGFull ((buildSVGFull cfg b f).2) b f).1 = (buildSVGFull cfg b f).1 := by
  have hnoop : resolveSteps cfg.steps = cfg.steps := resolveSteps_noop _ hres
  have hcfg : (buildSVGFull cfg b f).2 = cfg := by
    show { cfg with steps := resolveSteps cfg.steps } = cfg
    rw [hnoop]
  exact ⟨hcfg, by rw [hcfg]⟩

/-- Witness for C8 at the concrete resolved configuration cfgC2r. -/
theorem buildSVG_idempotent_on_resolved_witness :
    (buildSVGFull cfgC2r "build" false).2 = cfgC2r ∧
    (buildSVGFull ((buildSVGFull cfgC2r "build" false).2) "build" false).1 =
      (buildSVGFull cfgC2r "build" false).1 :=
  buildSVG_idempotent_on_resolved cfgC2r "build" false cfgC2r_resolved

/-- C9: the claim asserts that a negative timing value makes the
compiler raise an InvalidStepError naming the offending step and field
and produce no output.  It fails: no such validation exists.  On this
configuration whose first step starts at -1 s, the compile path
succeeds and returns a full document in which the first character
keyframe carries the negative begin percentage -83.3333. -/
theorem negative_timing_produces_output :
    (cfgC9.steps.getD 0 dummyStep).timing.start < 0 ∧
    compilePipeline cfgC9 "build" = Except.ok (buildSVGOut cfgC9 "build" false) ∧
    (((buildSVGOut cfgC9 "build" false).cssKeyframes.getD 2 dummyKF).kind = KFKind.typeChar ∧
      (((buildSVGOut cfgC9 "build" false).cssKeyframes.getD 2 dummyKF).entries.getD 2
          dummyKeyframe).pct = -833333/10000) := by
  refine ⟨by norm_num [cfgC9, mkConfig, mkStep], by simp [compilePipeline, cfgC9, mkConfig],
    ?_, ?_⟩ <;>
    · rw [buildSVGOut_cssKeyframes]
      norm_num [buildSteps, renderLinesM, renderPromptM, renderCommandM, partsAppend,
        lineFadeEntries, typeEntries, cmdGroupEntries, animateStartOf, toPct, round4,
        computeTotalAnimationTime, totalTimeGo, stepEnd, stepDuration, resolveSteps,
        resolveGo, resolveOne, prevEndTime, setStart, cfgC9, mkConfig, mkStep, TIMINGS,
        len_a, len_nil, isEmpty_a, isEmpty_nil, max_def, List.range_succ]

/-- C9 (amended): the compiler performs no timing validation at all:
every configuration with a nonempty step list compiles to a document,
negative values included; the only fail-fast rejection on the compile
path is the generic empty-steps guard of main, which raises the message
Invalid configuration: missing steps array and names no step index or
field; no InvalidStepError exists in the code. -/
theorem compile_validation_spec :
    (∀ (cfg : Config) (b : String), cfg.steps = [] →
      compilePipeline cfg b = Except.error "Invalid configuration: missing steps array") ∧
    (∀ (cfg : Config) (b : String), cfg.steps ≠ [] →
      compilePipeline cfg b = Except.ok (buildSVGOut cfg b false)) := by
  constructor
  · intro cfg b h
    simp [compilePipeline, h]
  · intro cfg b h
    simp [compilePipeline, h]

/-- Witness for C9: the empty configuration is rejected with the
generic message, while the negative-timing configuration compiles. -/
theorem compile_validation_spec_witness :
    compilePipeline cfgEmpty "build" =
      Except.error "Invalid configuration: missing steps array" ∧
    compilePipeline cfgC9 "build" = Except.ok (buildSVGOut cfgC9 "build" false) :=
  ⟨compile_validation_spec.1 cfgEmpty "build" rfl,
   compile_validation_spec.2 cfgC9 "build" (by simp [cfgC9, mkConfig])⟩

/-- C10: in every non-looping configuration the final step contributes
no prompt fragment and no command fragment to the document content, and
no command keyframe definitions (neither character typing nor group
fade): every fragment and every keyframe definition carrying the final
step index is of the line-group kind, so only the terminal lines of the
final step are rendered. -/
theorem last_step_lines_only (cfg : Config) (b : String) (f : Bool)
    (h : cfg.loop = false) :
    ((buildSVGOut cfg b f).content.all
      (fun fr => fr.stepIndex + 1 != cfg.steps.length || fr.kind == FragKind.lines)) = true ∧
    ((buildSVGOut cfg b f).cssKeyframes.all
      (fun kf => kf.stepIndex + 1 != cfg.steps.length ||
        kf.kind == KFKind.lineFade)) = true := by
  have hparts := buildSteps_parts cfg (computeTotalAnimationTime cfg)
    (computeTotalAnimationTime cfg * 1000) (f || cfg.loop) h (resolveSteps cfg.steps) 0 none
  constructor
  · apply List.all_eq_true.mpr
    intro fr hfr
    rw [buildSVGOut_content] at hfr
    obtain ⟨ha, hb, hc⟩ := hparts.1 fr hfr
    rw [Nat.zero_add, resolveSteps_length] at hb hc
    by_cases hidx : fr.stepIndex + 1 = cfg.steps.length
    · have hk := hc hidx
      simp [hk]
    · simp [hidx]
  · apply List.all_eq_true.mpr
    intro kf hkf
    rw [buildSVGOut_cssKeyframes] at hkf
    obtain ⟨ha, hb, hc⟩ := hparts.2 kf hkf
    rw [Nat.zero_add, resolveSteps_length] at hb hc
    by_cases hidx : kf.stepIndex + 1 = cfg.steps.length
    · have hk := hc hidx
      simp [hk]
    · simp [hidx]

/-- Witness for C10 at the concrete resolved two-step non-looping
configuration cfgC10. -/
theorem last_step_lines_only_witness :
    ((buildSVGOut cfgC10 "build" false).content.all
      (fun fr => fr.stepIndex + 1 != cfgC10.steps.length ||
        fr.kind == FragKind.lines)) = true ∧
    ((buildSVGOut cfgC10 "build" false).cssKeyframes.all
      (fun kf => kf.stepIndex + 1 != cfgC10.steps.length ||
        kf.kind == KFKind.lineFade)) = true :=
  last_step_lines_only cfgC10 "build" false rfl
